import Mathlib

/-!
# Resource access policy engine of `demo-graphql`

Shallow embedding of the resource registration file
`src/resources/tables.rs` together with the resource access policy
engine it plugs into (the `yeti_core` Extender API / Enforcement Point,
whose code is not part of this repository; those definitions are
modelled from the specification, as indicated on each doc comment).
-/

namespace DemoGraphQL

variable {α : Type}

/-- Modelled from the spec: the domain resource kinds registered by
`src/resources/tables.rs`, plus `other` for resource types never
registered by this repository. -/
inductive ResourceType : Type where
  | Author
  | Publisher
  | Book
  | Review
  | Category
  | other (name : String)
deriving DecidableEq

/-- Modelled from the spec: `Get`, `List`, `Create`, `Update`, `Delete`,
`Subscribe`. -/
inductive Operation : Type where
  | get
  | list
  | create
  | update
  | delete
  | subscribe
deriving DecidableEq

/-- Modelled from the spec: the authenticated caller's identity
(`none` = anonymous), a set of claims/roles, and request metadata. -/
structure RequestContext : Type where
  identity : Option String
  roles : List String
  requestedFields : List String
deriving DecidableEq

/-- Modelled from the spec: the anonymous request context. -/
def anonymousContext : RequestContext :=
  { identity := none, roles := [], requestedFields := [] }

/-- Modelled from the spec: result of one Guard evaluation:
`Pass`, `Pass-with-filter(predicate)`, or `Fail(reason)`.
`α` is the type of candidate records the row-level filter ranges over. -/
inductive GuardResult (α : Type) : Type where
  | pass
  | passWithFilter (f : α → Bool)
  | fail (reason : String)

/-- Modelled from the spec: Guard variants `AllowAlways`, `DenyAlways`,
`RequireAuthenticated`, `RequireRole(role)`, `Custom(predicate)`. -/
inductive Guard (α : Type) : Type where
  | allowAlways
  | denyAlways
  | requireAuthenticated
  | requireRole (role : String)
  | custom (p : Operation → RequestContext → List α → GuardResult α)

/-- Modelled from the spec: `evaluate(operation, context, candidate) ->
GuardResult`.  `AllowAlways` always returns `Pass`; `RequireAuthenticated`
returns `Fail` when the context's identity is anonymous, else `Pass`;
`Custom` wraps an arbitrary predicate. -/
def Guard.evaluate : Guard α → Operation → RequestContext → List α → GuardResult α
  | .allowAlways, _, _, _ => .pass
  | .denyAlways, _, _, _ => .fail "operation not permitted"
  | .requireAuthenticated, _, ctx, _ =>
      if ctx.identity.isSome then .pass else .fail "not authenticated"
  | .requireRole role, _, ctx, _ =>
      if ctx.roles.contains role then .pass else .fail "missing role"
  | .custom p, op, ctx, cands => p op ctx cands

/-- Modelled from the spec: a `PolicySet` is a mapping from `Operation`
to an ordered sequence of Guards, kept as the ordered list of
`register(op, guard)` calls (insertion order = evaluation order). -/
structure PolicySet (α : Type) : Type where
  rules : List (Operation × Guard α)

/-- Modelled from the spec: the empty PolicySet (no operation configured). -/
def PolicySet.empty : PolicySet α := ⟨[]⟩

/-- Modelled from the spec: `register(op, guard)` appends a Guard for
that operation. -/
def PolicySet.registerRule (ps : PolicySet α) (op : Operation) (g : Guard α) :
    PolicySet α :=
  ⟨ps.rules ++ [(op, g)]⟩

/-- Modelled from the spec: `for_operation(op) -> ordered sequence of
Guard` (empty sequence if unconfigured), in registration order. -/
def PolicySet.forOperation (ps : PolicySet α) (op : Operation) : List (Guard α) :=
  ps.rules.filterMap (fun e => if e.1 = op then some e.2 else none)

/-- Modelled from the spec: a `Decision` is `Allow`,
`Allow-with-filter(predicate)`, or `Deny(reason)`. -/
inductive Decision (α : Type) : Type where
  | allow
  | allowWithFilter (f : α → Bool)
  | deny (reason : String)

/-- Modelled from the spec: conjunctive composition of accumulated
row-level filters: a record must satisfy all of them. -/
def combineFilters (fs : List (α → Bool)) : α → Bool :=
  fun r => fs.all (fun f => f r)

/-- Modelled from the spec: evaluate a Guard sequence in order,
short-circuiting on the first `Fail` (returning `Deny` with that
failure's reason), accumulating filter predicates from
`Pass-with-filter` results; if all Guards pass, return `Allow`, or
`Allow-with-filter` of the conjunction when at least one filter was
accumulated. -/
def evalGuardsAux : List (Guard α) → Operation → RequestContext → List α →
    List (α → Bool) → Decision α
  | [], _, _, _, fs =>
      if fs.isEmpty then .allow else .allowWithFilter (combineFilters fs)
  | g :: gs, op, ctx, cands, fs =>
      match g.evaluate op ctx cands with
      | .pass => evalGuardsAux gs op ctx cands fs
      | .passWithFilter f => evalGuardsAux gs op ctx cands (fs ++ [f])
      | .fail reason => .deny reason

/-- Modelled from the spec: errors of the registration (Extender) API. -/
inductive RegError : Type where
  | duplicateResource (rt : ResourceType)
  | registryFrozen
deriving DecidableEq

/-- Modelled from the spec: the `Registry` maps resource types to
PolicySets (unique keys) and carries the explicit freeze flag of its
two-phase lifecycle. -/
structure Registry (α : Type) : Type where
  entries : List (ResourceType × PolicySet α)
  frozen : Bool

/-- Modelled from the spec: the empty, unfrozen startup Registry. -/
def Registry.empty : Registry α := ⟨[], false⟩

/-- Modelled from the spec: `lookup(resource_type) -> Option<PolicySet>`. -/
def lookupEntries : List (ResourceType × PolicySet α) → ResourceType →
    Option (PolicySet α)
  | [], _ => none
  | e :: es, rt => if e.1 = rt then some e.2 else lookupEntries es rt

/-- Modelled from the spec: Registry lookup. -/
def Registry.lookup (reg : Registry α) (rt : ResourceType) : Option (PolicySet α) :=
  lookupEntries reg.entries rt

/-- Modelled from the spec: `register(resource_type, policy_set)`.
Registration after the freeze point fails with `RegistryFrozenError`;
registering a resource type already present fails with
`DuplicateResourceError`; otherwise the entry is appended. -/
def Registry.register (reg : Registry α) (rt : ResourceType) (ps : PolicySet α) :
    Except RegError (Registry α) :=
  if reg.frozen then .error .registryFrozen
  else if (reg.lookup rt).isSome then .error (.duplicateResource rt)
  else .ok ⟨reg.entries ++ [(rt, ps)], reg.frozen⟩

/-- Modelled from the spec: the stateful reading of a registration call,
where a failing call leaves the Registry unchanged. -/
def Registry.tryRegister (reg : Registry α) (rt : ResourceType) (ps : PolicySet α) :
    Registry α :=
  match reg.register rt ps with
  | .ok r => r
  | .error _ => reg

/-- Modelled from the spec: the explicit freeze transition that ends the
mutable startup phase. -/
def Registry.freeze (reg : Registry α) : Registry α :=
  { reg with frozen := true }

/-- Modelled from the spec: the Enforcement Point.
`authorize(resource_type, operation, context, candidates) -> Decision`:
look up the PolicySet (absent ⇒ `Deny("no policy configured")`); fetch
the Guard sequence for the operation (empty ⇒ `Deny("operation not
permitted")`); otherwise evaluate the Guards in order. -/
def authorize (reg : Registry α) (rt : ResourceType) (op : Operation)
    (ctx : RequestContext) (cands : List α) : Decision α :=
  match reg.lookup rt with
  | none => .deny "no policy configured"
  | some ps =>
      match ps.forOperation op with
      | [] => .deny "operation not permitted"
      | g :: gs => evalGuardsAux (g :: gs) op ctx cands []

/-- Modelled from the spec: `allow_read()` is sugar for
`register(Get, AllowAlways); register(List, AllowAlways)`. -/
def allow_read : PolicySet α :=
  (PolicySet.empty.registerRule .get .allowAlways).registerRule .list .allowAlways

/-- The startup registration sequence of `src/resources/tables.rs`: one
`resource!(TableExtender for R { get => allow_read() })` call per
resource type, in file order. -/
def registerTables (reg : Registry α) : Except RegError (Registry α) := do
  let reg ← reg.register .Author allow_read
  let reg ← reg.register .Publisher allow_read
  let reg ← reg.register .Book allow_read
  let reg ← reg.register .Review allow_read
  let reg ← reg.register .Category allow_read
  pure reg

/-- The Registry built by `src/resources/tables.rs` and then frozen
before the first request is served. -/
def tablesRegistry : Except RegError (Registry α) :=
  (registerTables Registry.empty).map Registry.freeze

/-- The five entries the startup sequence produces, frozen. -/
def demoRegistry : Registry α :=
  ⟨[(.Author, allow_read), (.Publisher, allow_read), (.Book, allow_read),
    (.Review, allow_read), (.Category, allow_read)], true⟩

/-- The five resource types registered by `src/resources/tables.rs`. -/
def registeredTypes : List ResourceType :=
  [.Author, .Publisher, .Book, .Review, .Category]

/-- The operations for which `src/resources/tables.rs` registers no Guard. -/
def writeOps : List Operation :=
  [.create, .update, .delete, .subscribe]

/-! ## Analysis helpers for the evaluation algorithm -/

/-- The sequence of results the Guards of a sequence produce on fixed
inputs, in registration order. -/
def resultsOf (gs : List (Guard α)) (op : Operation) (ctx : RequestContext)
    (cands : List α) : List (GuardResult α) :=
  gs.map (fun g => g.evaluate op ctx cands)

/-- Reason of the first `Fail` in a result sequence, if any. -/
def firstFailReason : List (GuardResult α) → Option String
  | [] => none
  | .fail r :: _ => some r
  | .pass :: rs => firstFailReason rs
  | .passWithFilter _ :: rs => firstFailReason rs

/-- All row-level filters attached by `Pass-with-filter` results, in order. -/
def collectFilters : List (GuardResult α) → List (α → Bool)
  | [] => []
  | .passWithFilter f :: rs => f :: collectFilters rs
  | .pass :: rs => collectFilters rs
  | .fail _ :: rs => collectFilters rs

/-- The decision determined by a sequence of Guard results and the
filters accumulated so far. -/
def decideResults : List (GuardResult α) → List (α → Bool) → Decision α
  | [], fs => if fs.isEmpty then .allow else .allowWithFilter (combineFilters fs)
  | .pass :: rs, fs => decideResults rs fs
  | .passWithFilter f :: rs, fs => decideResults rs (fs ++ [f])
  | .fail r :: _, _ => .deny r

/-! ## Instrumented evaluation: which Guard positions are evaluated -/

/-- `true` exactly on a `Fail` result. -/
def GuardResult.isFail : GuardResult α → Bool
  | .fail _ => true
  | .pass => false
  | .passWithFilter _ => false

/-- The evaluator of `evalGuardsAux`, instrumented to also return the
positions (counted from `i`) of the Guards it actually evaluates. -/
def evalGuardsTraced : List (Guard α) → Operation → RequestContext → List α →
    List (α → Bool) → Nat → Decision α × List Nat
  | [], _, _, _, fs, _ =>
      (if fs.isEmpty then .allow else .allowWithFilter (combineFilters fs), [])
  | g :: gs, op, ctx, cands, fs, i =>
      match g.evaluate op ctx cands with
      | .pass =>
          let r := evalGuardsTraced gs op ctx cands fs (i + 1)
          (r.1, i :: r.2)
      | .passWithFilter f =>
          let r := evalGuardsTraced gs op ctx cands (fs ++ [f]) (i + 1)
          (r.1, i :: r.2)
      | .fail reason => (.deny reason, [i])

/-- Positions of the Guards evaluated when a Guard sequence is run. -/
def evalTrace (gs : List (Guard α)) (op : Operation) (ctx : RequestContext)
    (cands : List α) : List Nat :=
  (evalGuardsTraced gs op ctx cands [] 0).2

/-! ## Concrete policy sets used in the scenario instances -/

/-- A PolicySet requiring authentication for `Update` (spec scenario). -/
def authPolicy : PolicySet Nat :=
  PolicySet.empty.registerRule .update .requireAuthenticated

/-- A Registry holding only `Review` with `authPolicy`, frozen. -/
def reviewAuthRegistry : Registry Nat := ⟨[(.Review, authPolicy)], true⟩

/-- A sample row-level filter predicate. -/
def ownFilter : Nat → Bool := fun n => n == 0

/-- A PolicySet whose `Get` Guard passes with the row-level filter
`ownFilter` attached. -/
def filterPolicy : PolicySet Nat :=
  PolicySet.empty.registerRule .get (.custom (fun _ _ _ => .passWithFilter ownFilter))

/-- A Registry holding only `Book` with `filterPolicy`, frozen. -/
def filterRegistry : Registry Nat := ⟨[(.Book, filterPolicy)], true⟩

/-! ## Helper lemmas -/

theorem evalGuardsAux_eq_decideResults (gs : List (Guard α)) (op : Operation)
    (ctx : RequestContext) (cands : List α) (fs : List (α → Bool)) :
    evalGuardsAux gs op ctx cands fs = decideResults (resultsOf gs op ctx cands) fs := by
  induction gs generalizing fs with
  | nil => rfl
  | cons g gs ih =>
      simp only [evalGuardsAux, resultsOf, List.map_cons]
      cases g.evaluate op ctx cands with
      | pass => simpa [resultsOf, decideResults] using ih fs
      | passWithFilter f => simpa [resultsOf, decideResults] using ih (fs ++ [f])
      | fail r => simp [decideResults]

theorem decideResults_of_fail (rs : List (GuardResult α)) (fs : List (α → Bool))
    (reason : String) (h : firstFailReason rs = some reason) :
    decideResults rs fs = .deny reason := by
  induction rs generalizing fs with
  | nil => simp [firstFailReason] at h
  | cons r rs ih =>
      cases r with
      | pass => exact ih fs (by simpa [firstFailReason] using h)
      | passWithFilter f => exact ih (fs ++ [f]) (by simpa [firstFailReason] using h)
      | fail r' =>
          simp [firstFailReason] at h
          simp [decideResults, h]

theorem decideResults_of_pass (rs : List (GuardResult α)) (fs : List (α → Bool))
    (h : firstFailReason rs = none) :
    decideResults rs fs =
      if (fs ++ collectFilters rs).isEmpty then .allow
      else .allowWithFilter (combineFilters (fs ++ collectFilters rs)) := by
  induction rs generalizing fs with
  | nil =>
      rw [show collectFilters ([] : List (GuardResult α)) = [] from rfl, List.append_nil]
      rfl
  | cons r rs ih =>
      cases r with
      | pass =>
          simpa [decideResults, collectFilters] using
            ih fs (by simpa [firstFailReason] using h)
      | passWithFilter f =>
          have := ih (fs ++ [f]) (by simpa [firstFailReason] using h)
          simpa [decideResults, collectFilters, List.append_assoc] using this
      | fail r' => simp [firstFailReason] at h

theorem evalGuardsTraced_fst (gs : List (Guard α)) (op : Operation)
    (ctx : RequestContext) (cands : List α) (fs : List (α → Bool)) (i : Nat) :
    (evalGuardsTraced gs op ctx cands fs i).1 = evalGuardsAux gs op ctx cands fs := by
  induction gs generalizing fs i with
  | nil => rfl
  | cons g gs ih =>
      simp only [evalGuardsTraced, evalGuardsAux]
      cases g.evaluate op ctx cands with
      | pass => exact ih fs (i + 1)
      | passWithFilter f => exact ih (fs ++ [f]) (i + 1)
      | fail r => rfl

theorem evalGuardsTraced_snd_range (gs : List (Guard α)) (op : Operation)
    (ctx : RequestContext) (cands : List α) (fs : List (α → Bool)) (i : Nat) :
    ∃ k, k ≤ gs.length ∧ (evalGuardsTraced gs op ctx cands fs i).2 = List.range' i k := by
  induction gs generalizing fs i with
  | nil => exact ⟨0, Nat.le_refl 0, rfl⟩
  | cons g gs ih =>
      simp only [evalGuardsTraced]
      cases g.evaluate op ctx cands with
      | pass =>
          obtain ⟨k, hk, htr⟩ := ih fs (i + 1)
          exact ⟨k + 1, Nat.succ_le_succ hk, by simp [List.range'_succ, htr]⟩
      | passWithFilter f =>
          obtain ⟨k, hk, htr⟩ := ih (fs ++ [f]) (i + 1)
          exact ⟨k + 1, Nat.succ_le_succ hk, by simp [List.range'_succ, htr]⟩
      | fail r =>
          exact ⟨1, Nat.succ_le_succ (Nat.zero_le _), by simp [List.range'_succ]⟩

theorem evalGuardsTraced_snd_of_firstFail (gs : List (Guard α)) (op : Operation)
    (ctx : RequestContext) (cands : List α) :
    ∀ (i j : Nat) (fs : List (α → Bool)) (g : Guard α),
      gs.get? i = some g →
      (g.evaluate op ctx cands).isFail = true →
      (∀ j' g', j' < i → gs.get? j' = some g' →
          (g'.evaluate op ctx cands).isFail = false) →
      (evalGuardsTraced gs op ctx cands fs j).2 = List.range' j (i + 1) := by
  induction gs with
  | nil => intro i j fs g hg; simp at hg
  | cons g0 gs ih =>
      intro i j fs g hg hfail hprev
      cases i with
      | zero =>
          have hg0 : g0 = g := by simpa using hg
          subst hg0
          cases hres : g0.evaluate op ctx cands with
          | pass => rw [hres] at hfail; simp [GuardResult.isFail] at hfail
          | passWithFilter f => rw [hres] at hfail; simp [GuardResult.isFail] at hfail
          | fail r => simp [evalGuardsTraced, hres, List.range'_succ]
      | succ i' =>
          have h0 : (g0.evaluate op ctx cands).isFail = false :=
            hprev 0 g0 (Nat.succ_pos i') rfl
          have hg' : gs.get? i' = some g := by simpa using hg
          have hprev' : ∀ j' g', j' < i' → gs.get? j' = some g' →
              (g'.evaluate op ctx cands).isFail = false := by
            intro j' g' hj' hget
            exact hprev (j' + 1) g' (Nat.succ_lt_succ hj') (by simpa using hget)
          cases hres : g0.evaluate op ctx cands with
          | fail r => rw [hres] at h0; simp [GuardResult.isFail] at h0
          | pass =>
              have := ih i' (j + 1) fs g hg' hfail hprev'
              simp [evalGuardsTraced, hres, this, List.range'_succ]
          | passWithFilter f =>
              have := ih i' (j + 1) (fs ++ [f]) g hg' hfail hprev'
              simp [evalGuardsTraced, hres, this, List.range'_succ]


/-! ## Claim theorems -/

/-- Claim C1: default-deny invariant — for every operation with no
registered Guard (Create, Update, Delete and Subscribe on each of the
five registered resource types, and every operation of any unregistered
resource type), `authorize` returns `Deny` for every request context and
candidate set. -/
theorem default_deny_unconfigured :
    (∀ rt ∈ registeredTypes, ∀ op ∈ writeOps, ∀ (ctx : RequestContext) (cands : List α),
        authorize demoRegistry rt op ctx cands = .deny "operation not permitted") ∧
    (∀ (name : String) (op : Operation) (ctx : RequestContext) (cands : List α),
        authorize demoRegistry (.other name) op ctx cands = .deny "no policy configured") := by
  constructor
  · intro rt hrt op hop ctx cands
    fin_cases hrt <;> fin_cases hop <;> rfl
  · intro name op ctx cands
    cases op <;> rfl

/-- Witness for `default_deny_unconfigured`: `Create` on `Book` and `Get`
on an unregistered resource type are both denied for the anonymous
context. -/
theorem default_deny_unconfigured_witness :
    authorize (demoRegistry : Registry Nat) .Book .create anonymousContext [] =
      .deny "operation not permitted" ∧
    authorize (demoRegistry : Registry Nat) (.other "Magazine") .get anonymousContext [] =
      .deny "no policy configured" :=
  ⟨default_deny_unconfigured.1 .Book (by decide) .create (by decide) anonymousContext [],
   default_deny_unconfigured.2 "Magazine" .get anonymousContext []⟩

/-- Claim C2: `allow_read()` registers `AllowAlways` for both `Get` and
`List`, and consequently `authorize` returns `Allow` on `Get` and `List`
of each of the five registered resource types for every request context
(including the anonymous one) and every candidate set. -/
theorem allow_read_unrestricted :
    (allow_read (α := α)).rules = [(.get, .allowAlways), (.list, .allowAlways)] ∧
    ∀ rt ∈ registeredTypes, ∀ (ctx : RequestContext) (cands : List α),
      authorize demoRegistry rt .get ctx cands = .allow ∧
      authorize demoRegistry rt .list ctx cands = .allow := by
  refine ⟨rfl, ?_⟩
  intro rt hrt ctx cands
  fin_cases hrt <;> exact ⟨rfl, rfl⟩

/-- Witness for `allow_read_unrestricted`: anonymous `Get` and `List` on
`Book` are allowed. -/
theorem allow_read_unrestricted_witness :
    (allow_read (α := Nat)).rules = [(.get, .allowAlways), (.list, .allowAlways)] ∧
    authorize (demoRegistry : Registry Nat) .Book .get anonymousContext [] = .allow ∧
    authorize (demoRegistry : Registry Nat) .Book .list anonymousContext [] = .allow :=
  ⟨(allow_read_unrestricted (α := Nat)).1,
   ((allow_read_unrestricted (α := Nat)).2 .Book (by decide) anonymousContext []).1,
   ((allow_read_unrestricted (α := Nat)).2 .Book (by decide) anonymousContext []).2⟩

/-- Claim C3: the `authorize` algorithm — `Deny("no policy configured")`
when the Registry has no PolicySet for the resource type;
`Deny("operation not permitted")` when the Guard sequence for the
operation is empty; otherwise `Deny` with the first failure's reason if
some Guard fails, `Allow` if all Guards pass with no filter, and
`Allow-with-filter` of the conjunction of all accumulated filters if all
pass and at least one attached a filter. -/
theorem authorize_algorithm :
    ∀ (reg : Registry α) (rt : ResourceType) (op : Operation)
      (ctx : RequestContext) (cands : List α),
    (reg.lookup rt = none → authorize reg rt op ctx cands = .deny "no policy configured") ∧
    (∀ ps, reg.lookup rt = some ps → ps.forOperation op = [] →
        authorize reg rt op ctx cands = .deny "operation not permitted") ∧
    (∀ ps, reg.lookup rt = some ps → ps.forOperation op ≠ [] →
        (∀ reason,
            firstFailReason (resultsOf (ps.forOperation op) op ctx cands) = some reason →
            authorize reg rt op ctx cands = .deny reason) ∧
        (firstFailReason (resultsOf (ps.forOperation op) op ctx cands) = none →
            (collectFilters (resultsOf (ps.forOperation op) op ctx cands) = [] →
                authorize reg rt op ctx cands = .allow) ∧
            ∀ fs, collectFilters (resultsOf (ps.forOperation op) op ctx cands) = fs →
                fs ≠ [] →
                authorize reg rt op ctx cands = .allowWithFilter (combineFilters fs))) := by
  intro reg rt op ctx cands
  refine ⟨?_, ?_, ?_⟩
  · intro h; simp [authorize, h]
  · intro ps hps hemp; simp [authorize, hps, hemp]
  · intro ps hps hne
    have hmain : authorize reg rt op ctx cands =
        decideResults (resultsOf (ps.forOperation op) op ctx cands) [] := by
      cases hfo : ps.forOperation op with
      | nil => exact absurd hfo hne
      | cons g gs => simp [authorize, hps, hfo, evalGuardsAux_eq_decideResults]
    refine ⟨?_, ?_⟩
    · intro reason hr
      rw [hmain]
      exact decideResults_of_fail _ _ _ hr
    · intro hnone
      refine ⟨?_, ?_⟩
      · intro hcoll
        rw [hmain, decideResults_of_pass _ _ hnone, hcoll]
        rfl
      · intro fs hfs hne2
        rw [hmain, decideResults_of_pass _ _ hnone, hfs]
        cases fs with
        | nil => exact absurd rfl hne2
        | cons f fs2 => rfl

/-- Witness for `authorize_algorithm`: each branch of the algorithm at a
concrete input — missing PolicySet, empty Guard sequence, a failing
Guard, all-pass with no filter, and all-pass with one filter. -/
theorem authorize_algorithm_witness :
    authorize (Registry.empty : Registry Nat) .Book .get anonymousContext [] =
      .deny "no policy configured" ∧
    authorize (demoRegistry : Registry Nat) .Book .create anonymousContext [] =
      .deny "operation not permitted" ∧
    authorize reviewAuthRegistry .Review .update anonymousContext [] =
      .deny "not authenticated" ∧
    authorize (demoRegistry : Registry Nat) .Book .get anonymousContext [] = .allow ∧
    authorize filterRegistry .Book .get anonymousContext [] =
      .allowWithFilter (combineFilters [ownFilter]) :=
  ⟨(authorize_algorithm Registry.empty .Book .get anonymousContext []).1 rfl,
   (authorize_algorithm demoRegistry .Book .create anonymousContext []).2.1
     allow_read rfl rfl,
   ((authorize_algorithm reviewAuthRegistry .Review .update anonymousContext []).2.2
       authPolicy rfl (by intro h; exact List.noConfusion h)).1 "not authenticated" rfl,
   (((authorize_algorithm demoRegistry .Book .get anonymousContext []).2.2
       allow_read rfl (by intro h; exact List.noConfusion h)).2 rfl).1 rfl,
   (((authorize_algorithm filterRegistry .Book .get anonymousContext []).2.2
       filterPolicy rfl (by intro h; exact List.noConfusion h)).2 rfl).2
     [ownFilter] rfl (List.cons_ne_nil _ _)⟩

/-- Claim C4: Guards are evaluated exactly in registration order
(the trace of evaluated positions is an initial segment `0, 1, …` of the
registered sequence), and when the Guard at position `i` is the first to
return `Fail`, the trace is exactly `0 … i`: no Guard at a position
greater than `i` is evaluated. -/
theorem guard_short_circuit :
    ∀ (gs : List (Guard α)) (op : Operation) (ctx : RequestContext) (cands : List α),
    (evalGuardsTraced gs op ctx cands [] 0).1 = evalGuardsAux gs op ctx cands [] ∧
    (∃ k, k ≤ gs.length ∧ evalTrace gs op ctx cands = List.range k) ∧
    ∀ (i : Nat) (g : Guard α),
      gs.get? i = some g →
      (g.evaluate op ctx cands).isFail = true →
      (∀ j g2, j < i → gs.get? j = some g2 →
          (g2.evaluate op ctx cands).isFail = false) →
      evalTrace gs op ctx cands = List.range (i + 1) ∧
      ∀ m ∈ evalTrace gs op ctx cands, m ≤ i := by
  intro gs op ctx cands
  refine ⟨evalGuardsTraced_fst gs op ctx cands [] 0, ?_, ?_⟩
  · obtain ⟨k, hk, htr⟩ := evalGuardsTraced_snd_range gs op ctx cands [] 0
    exact ⟨k, hk, by rw [evalTrace, htr, List.range_eq_range']⟩
  · intro i g hg hfail hprev
    have htr := evalGuardsTraced_snd_of_firstFail gs op ctx cands i 0 [] g hg hfail hprev
    have htr2 : evalTrace gs op ctx cands = List.range (i + 1) := by
      rw [evalTrace, htr, List.range_eq_range']
    refine ⟨htr2, ?_⟩
    intro m hm
    rw [htr2] at hm
    exact Nat.lt_succ_iff.mp (List.mem_range.mp hm)

/-- Witness for `guard_short_circuit`: with the sequence
`[AllowAlways, DenyAlways, AllowAlways]`, only positions 0 and 1 are
evaluated. -/
theorem guard_short_circuit_witness :
    evalTrace [Guard.allowAlways (α := Nat), .denyAlways, .allowAlways] .get
        anonymousContext [] = List.range 2 ∧
    ∀ m ∈ evalTrace [Guard.allowAlways (α := Nat), .denyAlways, .allowAlways] .get
        anonymousContext [], m ≤ 1 :=
  (guard_short_circuit [.allowAlways, .denyAlways, .allowAlways] .get
      anonymousContext []).2.2 1 .denyAlways rfl rfl
    (by
      intro j g2 hj hget
      have hj0 : j = 0 := Nat.lt_one_iff.mp hj
      subst hj0
      simp at hget
      subst hget
      rfl)

/-- Claim C5 (counterexample to the claim as stated): on a Registry that
is frozen and already holds `Author`, registering `Author` again fails
with `RegistryFrozenError`, not `DuplicateResourceError`: the freeze
check takes precedence. -/
theorem duplicate_error_frozen_counterexample :
    Registry.register (demoRegistry : Registry Nat) .Author allow_read ≠
      .error (.duplicateResource .Author) := by
  simp [Registry.register, demoRegistry]

/-- Claim C5 (amended): for every unfrozen Registry in which a resource
type is already present, registering that resource type again fails with
`DuplicateResourceError` and leaves the Registry unchanged. -/
theorem duplicate_registration_error :
    ∀ (reg : Registry α) (rt : ResourceType) (ps : PolicySet α),
    reg.frozen = false → (reg.lookup rt).isSome = true →
    reg.register rt ps = .error (.duplicateResource rt) ∧
    reg.tryRegister rt ps = reg := by
  intro reg rt ps hfr hdup
  have hreg : reg.register rt ps = .error (.duplicateResource rt) := by
    simp [Registry.register, hfr, hdup]
  exact ⟨hreg, by simp [Registry.tryRegister, hreg]⟩

/-- Witness for `duplicate_registration_error`: re-registering `Author`
on an unfrozen Registry already holding it fails with the duplicate
error and leaves the Registry unchanged. -/
theorem duplicate_registration_error_witness :
    (Registry.mk [(ResourceType.Author, allow_read)] false : Registry Nat).register
        .Author allow_read = .error (.duplicateResource .Author) ∧
    (Registry.mk [(ResourceType.Author, allow_read)] false : Registry Nat).tryRegister
        .Author allow_read = Registry.mk [(ResourceType.Author, allow_read)] false :=
  duplicate_registration_error _ _ allow_read rfl rfl

/-- Claim C6: after the freeze transition, any registration call for any
resource type fails with `RegistryFrozenError` and leaves the Registry
unchanged. -/
theorem frozen_registration_error :
    ∀ (reg : Registry α) (rt : ResourceType) (ps : PolicySet α),
    (Registry.freeze reg).register rt ps = .error .registryFrozen ∧
    (Registry.freeze reg).tryRegister rt ps = Registry.freeze reg :=
  fun _ _ _ => ⟨rfl, rfl⟩

/-- Claim C7: determinism — evaluating `authorize` (and the Guard
sequence evaluator) twice on the same resource type, operation, request
context and candidate set yields the same Decision in both runs; the
embedding is a pure function, so Guard evaluation has no side effects
that could make two runs differ. -/
theorem authorize_deterministic :
    ∀ (reg : Registry α) (rt : ResourceType) (op : Operation)
      (ctx : RequestContext) (cands : List α),
    authorize reg rt op ctx cands = authorize reg rt op ctx cands ∧
    ∀ (gs : List (Guard α)) (fs : List (α → Bool)),
      evalGuardsAux gs op ctx cands fs = evalGuardsAux gs op ctx cands fs :=
  fun _ _ _ _ _ => ⟨rfl, fun _ _ => rfl⟩

/-- Claim C8: totality — for every resource type, operation, request
context and candidate set, `authorize` returns a `Decision` that is
`Allow`, `Allow-with-filter` or `Deny`; denial is delivered only as the
`Deny` return value, never as an exception. -/
theorem authorize_total_decision :
    ∀ (reg : Registry α) (rt : ResourceType) (op : Operation)
      (ctx : RequestContext) (cands : List α),
    authorize reg rt op ctx cands = .allow ∨
    (∃ f, authorize reg rt op ctx cands = .allowWithFilter f) ∨
    (∃ reason, authorize reg rt op ctx cands = .deny reason) := by
  intro reg rt op ctx cands
  cases h : authorize reg rt op ctx cands with
  | allow => exact Or.inl rfl
  | allowWithFilter f => exact Or.inr (Or.inl ⟨f, rfl⟩)
  | deny r => exact Or.inr (Or.inr ⟨r, rfl⟩)

/-- Claim C9: the startup sequence of `src/resources/tables.rs` registers
the five pairwise-distinct resource types exactly once each before the
freeze point, so it completes without hitting the duplicate or frozen
error branches, and the frozen Registry holds all five entries. -/
theorem startup_registration_succeeds :
    tablesRegistry (α := α) = .ok demoRegistry ∧
    (demoRegistry (α := α)).frozen = true ∧
    (demoRegistry (α := α)).entries.map Prod.fst = registeredTypes ∧
    registeredTypes.Nodup ∧
    ∀ rt ∈ registeredTypes, (demoRegistry (α := α)).lookup rt = some allow_read := by
  refine ⟨rfl, rfl, rfl, by decide, ?_⟩
  intro rt hrt
  fin_cases hrt <;> rfl

/-- Witness for `startup_registration_succeeds`: the registration
sequence yields the five-entry frozen Registry and `Category` is
present. -/
theorem startup_registration_succeeds_witness :
    tablesRegistry (α := Nat) = .ok demoRegistry ∧
    (demoRegistry (α := Nat)).lookup .Category = some allow_read :=
  ⟨(startup_registration_succeeds (α := Nat)).1,
   (startup_registration_succeeds (α := Nat)).2.2.2.2 .Category (by decide)⟩

/-- Claim C10: noninterference — for each of the five registered resource
types, every operation and every candidate set, any two request contexts
(anonymous or authenticated, with any claims or roles) receive identical
Decisions from `authorize`, because the only registered Guard is
`AllowAlways` and all other operations deny unconditionally. -/
theorem context_noninterference :
    ∀ rt ∈ registeredTypes, ∀ (op : Operation) (ctx1 ctx2 : RequestContext)
      (cands : List α),
    authorize demoRegistry rt op ctx1 cands = authorize demoRegistry rt op ctx2 cands := by
  intro rt hrt op ctx1 ctx2 cands
  fin_cases hrt <;> cases op <;> rfl

/-- Witness for `context_noninterference`: the anonymous context and an
authenticated admin context receive the same Decision for `Create` on
`Book`. -/
theorem context_noninterference_witness :
    authorize (demoRegistry : Registry Nat) .Book .create anonymousContext [] =
      authorize demoRegistry .Book .create ⟨some "alice", ["admin"], []⟩ [] :=
  context_noninterference .Book (by decide) .create anonymousContext
    ⟨some "alice", ["admin"], []⟩ []

end DemoGraphQL
